import Mathlib

/-!
Verification of the Novelgen comic-authoring application core.

The TypeScript source keeps all application state in a single React
component (`App`): an ordered list of comic panels, selection pointers,
a UI generation mode, a character roster and a loading flag.  Panels are
mutated by pure state-replacement handlers.  This file embeds that data
model and those handlers shallowly:

* uuid identities are modelled by a fresh-natural supply `nextId` carried
  in the state: every id the code mints with `uuidv4()` is modelled as a
  counter value, and freshness of the counter over existing ids is the
  corresponding hypothesis;
* the asynchronous gateway calls (`generateComicImage`,
  `generateImageFromSketch`, `editComicImage`) are modelled by an oracle
  argument giving the outcome of the single round trip: `some url` for a
  successful response, `none` for a thrown error or missing payload;
* JavaScript string interpolation and `trim()` are modelled on
  `List Char` data.
-/

/-- Image slot of a panel (`ComicImage` in `types.ts`): identity, image
reference (empty string means unfilled placeholder) and producing prompt. -/
structure ComicImage where
  id : Nat
  url : String
  prompt : String
deriving DecidableEq, Repr

/-- The ten split-layout tags of `types.ts`. -/
inductive PanelSplitLayout where
  | SINGLE
  | DOUBLE_V
  | DOUBLE_H
  | TRIPLE_V
  | TRIPLE_H
  | QUAD
  | BIG_LEFT
  | BIG_RIGHT
  | BIG_TOP
  | BIG_BOTTOM
deriving DecidableEq, Repr

/-- Overlay tags of `ComicPanel.overlayType` in `types.ts`. -/
inductive OverlayKind where
  | NONE
  | BUBBLE_LEFT
  | BUBBLE_RIGHT
  | THOUGHT
  | WHISPER
  | SHOUT
  | CAPTION_BOX
  | ONOMATOPOEIA
deriving DecidableEq, Repr

/-- A comic panel (`ComicPanel` in `types.ts`).  The `aspect` field models
the union-of-string-literals `aspectRatio` field of the source. -/
structure ComicPanel where
  id : Nat
  images : List ComicImage
  splitLayout : PanelSplitLayout
  caption : String
  aspect : String
  overlayType : OverlayKind
  colSpan : Nat
deriving DecidableEq, Repr

/-- Generation modes of the toolbox UI (`GenerationMode` in `types.ts`). -/
inductive GenerationMode where
  | CREATE
  | EDIT
  | STORY
deriving DecidableEq, Repr

/-- Grid layouts of the page (`GridLayout` in `types.ts`). -/
inductive GridLayout where
  | STANDARD
  | CLASSIC
  | VERTICAL
  | DYNAMIC
  | STORYBOARD
deriving DecidableEq, Repr

/-- Gutter sizes (`GutterSize` in `types.ts`). -/
inductive GutterSize where
  | NONE
  | TINY
  | SMALL
  | MEDIUM
  | LARGE
  | HUGE
deriving DecidableEq, Repr

/-- Comic art styles (`ComicStyle` in `types.ts`). -/
inductive ComicStyle where
  | MODERN
  | SUPERHERO
  | MANGA
  | GHIBLI
  | NOIR
  | RETRO
  | CYBERPUNK
  | FANTASY
  | HORROR
  | SKETCH
  | WATERCOLOR
deriving DecidableEq, Repr

/-- Loading flag and message (`LoadingState` in `types.ts`). -/
structure LoadingState where
  isLoading : Bool
  message : String
deriving DecidableEq, Repr

/-- Character roster entry (`Character` in `types.ts`). -/
structure Character where
  id : Nat
  name : String
  description : String
deriving DecidableEq, Repr

/-- The whole `App` component state: the `useState` hooks of `App.tsx`
plus the fresh-id supply modelling `uuidv4`. -/
structure AppState where
  panels : List ComicPanel
  selectedPanelId : Option Nat
  activeSlotId : Option Nat
  mode : GenerationMode
  gridLayout : GridLayout
  gutterSize : GutterSize
  characters : List Character
  loadingState : LoadingState
  nextId : Nat
deriving DecidableEq, Repr

/-- The initial state of `App`: empty panel list, no selection, create
mode, standard grid, medium gutter, empty roster, not loading. -/
def initialAppState : AppState :=
  { panels := []
    selectedPanelId := none
    activeSlotId := none
    mode := GenerationMode.CREATE
    gridLayout := GridLayout.STANDARD
    gutterSize := GutterSize.MEDIUM
    characters := []
    loadingState := { isLoading := false, message := "" }
    nextId := 0 }

/-- Target slot count of a split layout, transcribing the `targetCount`
computation of `handleChangeSplitLayout` (three successive overriding
conditionals starting from 1). -/
def targetSlotCount (L : PanelSplitLayout) : Nat :=
  let t := 1
  let t := if L = PanelSplitLayout.DOUBLE_V ∨ L = PanelSplitLayout.DOUBLE_H then 2 else t
  let t := if L = PanelSplitLayout.TRIPLE_V ∨ L = PanelSplitLayout.TRIPLE_H ∨
              L = PanelSplitLayout.BIG_LEFT ∨ L = PanelSplitLayout.BIG_RIGHT ∨
              L = PanelSplitLayout.BIG_TOP ∨ L = PanelSplitLayout.BIG_BOTTOM then 3 else t
  if L = PanelSplitLayout.QUAD then 4 else t

/-- Slot-list reconciliation of `handleChangeSplitLayout`: append fresh
empty slots (ids minted from the supply `n`) when below the target count,
truncate from the end when above it, leave unchanged when equal. -/
def reconcileImages (n target : Nat) (imgs : List ComicImage) : List ComicImage :=
  if imgs.length < target then
    imgs ++ (List.range (target - imgs.length)).map (fun j => { id := n + j, url := "", prompt := "" })
  else
    imgs.take target

/-- Per-panel effect of `handleChangeSplitLayout` on the targeted panel. -/
def applySplitLayout (n : Nat) (L : PanelSplitLayout) (p : ComicPanel) : ComicPanel :=
  { p with splitLayout := L, images := reconcileImages n (targetSlotCount L) p.images }

/-- Walk of the panel list performed by `handleChangeSplitLayout`,
threading the fresh-id supply: panels whose id differs from the target
are returned unchanged, the targeted panel is reconciled, consuming one
fresh id per appended slot. -/
def updatePanelsSplit (pid : Nat) (L : PanelSplitLayout) : Nat → List ComicPanel → Nat × List ComicPanel
  | n, [] => (n, [])
  | n, p :: ps =>
    if p.id = pid then
      let r := updatePanelsSplit pid L (n + (targetSlotCount L - p.images.length)) ps
      (r.1, applySplitLayout n L p :: r.2)
    else
      let r := updatePanelsSplit pid L n ps
      (r.1, p :: r.2)

/-- `handleChangeSplitLayout` of `App.tsx`. -/
def handleChangeSplitLayout (st : AppState) (pid : Nat) (L : PanelSplitLayout) : AppState :=
  let r := updatePanelsSplit pid L st.nextId st.panels
  { st with panels := r.2, nextId := r.1 }

/-- JavaScript `Array.prototype.join` with a separator, as used on the
character roster (`.join('. ')`). -/
def jsJoin (sep : String) : List String → String
  | [] => ""
  | [s] => s
  | s :: t :: r => s ++ sep ++ jsJoin sep (t :: r)

/-- JavaScript `String.prototype.trim` on character data: drop leading
and trailing whitespace. -/
def jsTrimData (l : List Char) : List Char :=
  ((l.dropWhile Char.isWhitespace).reverse.dropWhile Char.isWhitespace).reverse

/-- JavaScript `String.prototype.trim`. -/
def jsTrim (s : String) : String :=
  String.mk (jsTrimData s.data)

/-- One roster entry of `getCharacterContextString` in `App.tsx`:
trimmed name, a colon-space, trimmed description. -/
def characterEntry (c : Character) : String :=
  jsTrim c.name ++ ": " ++ jsTrim c.description

/-- `getCharacterContextString` of `App.tsx`: empty for an empty roster,
otherwise the entries joined by a period-space. -/
def getCharacterContextString (chars : List Character) : String :=
  if chars.length = 0 then "" else jsJoin ". " (chars.map characterEntry)

/-- `getStylePrompt` of `App.tsx`: the eleven-entry style table. -/
def getStylePrompt : ComicStyle → String
  | ComicStyle.MODERN => "modern comic book style, crisp lines, vibrant colors, digital art"
  | ComicStyle.SUPERHERO => "classic american superhero comic style, marvel style, dynamic action poses, bold colors, detailed muscle anatomy, cinematic composition"
  | ComicStyle.MANGA => "manga style, anime aesthetic, expressive characters, detailed ink lines, screentones"
  | ComicStyle.GHIBLI => "studio ghibli style, hayao miyazaki art style, beautiful painted backgrounds, whimsical, soft colors, highly detailed nature"
  | ComicStyle.NOIR => "film noir style, high contrast black and white comic, dramatic shadows, mysterious atmosphere, frank miller style"
  | ComicStyle.RETRO => "vintage 1950s comic style, halftone dots, retro color palette, aged paper texture, golden age comics"
  | ComicStyle.CYBERPUNK => "cyberpunk style, neon lights, futuristic city, high tech, rain-slicked streets, vibrant neon colors"
  | ComicStyle.FANTASY => "fantasy comic style, oil painting aesthetic, epic lighting, dungeons and dragons art style"
  | ComicStyle.HORROR => "horror comic style, junji ito style, eerie atmosphere, dark gritty details, high contrast"
  | ComicStyle.SKETCH => "rough sketch comic style, pencil textures, loose lines, charcoal, artistic unfinished look"
  | ComicStyle.WATERCOLOR => "watercolor comic style, artistic, soft edges, bleeding colors, dreamlike atmosphere"

/-- The conditional roster clause of the `fullPrompt` template in
`handleGenerate`: present exactly when the context string is non-empty
(JavaScript truthiness of the interpolated conditional). -/
def characterClause (chars : List Character) : String :=
  if getCharacterContextString chars = "" then ""
  else "Defined Characters (MUST MATCH EXACTLY): " ++ getCharacterContextString chars ++ "."

/-- The raw `fullPrompt` template literal of `handleGenerate`, before the
final `trim()`: newlines and six-space indentation exactly as in source. -/
def generationTemplate (stylePart clause scene : String) : String :=
  "\n      Art Style: " ++ stylePart ++ ".\n      " ++ clause ++
    "\n      Scene Description: " ++ scene ++
    ".\n      (Ensure consistent character details). high quality masterpiece.\n    "

/-- The composed generation prompt of `handleGenerate`: the template
instantiated with the style string and the roster clause, then trimmed. -/
def composedPrompt (style : ComicStyle) (chars : List Character) (scene : String) : String :=
  jsTrim (generationTemplate (getStylePrompt style) (characterClause chars) scene)

/-- The `fullEditPrompt` of `handleEdit`: the bare instruction when the
roster context is empty, otherwise instruction plus consistency clause. -/
def fullEditPrompt (chars : List Character) (ep : String) : String :=
  if getCharacterContextString chars = "" then ep
  else "Edit Instruction: " ++ ep ++ ". (Maintain character consistency: " ++
    getCharacterContextString chars ++ ")"

/-- `handleGenerate` of `App.tsx` after the gateway round trip resolved.
`gw` is the oracle for the single image-generation call made with the
composed prompt (`generateComicImage`, or `generateImageFromSketch`
in sketch mode — both receive the same `fullPrompt`): `none` models a
thrown error or missing payload, `some url` a successful image.  On
success, with a selected panel and active slot the slot is replaced in
place; otherwise a fresh single-slot panel is appended.  The loading
flag is always cleared by the `finally` block. -/
def handleGenerateRun (st : AppState) (scene : String) (style : ComicStyle) (gw : String → Option String) : AppState :=
  match gw (composedPrompt style st.characters scene) with
  | none => { st with loadingState := { isLoading := false, message := "" } }
  | some imageUrl =>
    match st.selectedPanelId, st.activeSlotId with
    | some pid, some sid =>
      match st.panels.find? (fun p => p.id == pid) with
      | some panel =>
        let updatedImages := panel.images.map (fun im =>
          if im.id = sid then { im with url := imageUrl, prompt := scene } else im)
        { st with
          panels := st.panels.map (fun p => if p.id = pid then { p with images := updatedImages } else p)
          loadingState := { isLoading := false, message := "" } }
      | none => { st with loadingState := { isLoading := false, message := "" } }
    | _, _ =>
      let newPanel : ComicPanel :=
        { id := st.nextId
          images := [{ id := st.nextId + 1, url := imageUrl, prompt := scene }]
          splitLayout := PanelSplitLayout.SINGLE
          caption := ""
          aspect := "1:1"
          overlayType := OverlayKind.NONE
          colSpan := 1 }
      { st with
        panels := st.panels ++ [newPanel]
        nextId := st.nextId + 2
        loadingState := { isLoading := false, message := "" } }

/-- Observable outcome of a `handleEdit` call: the state afterwards,
the gateway request actually issued (source image url and full edit
prompt), if any, and whether an `alert` was shown. -/
structure EditResult where
  state : AppState
  gatewayCalled : Option (String × String)
  alerted : Bool
deriving Repr

/-- `handleEdit` of `App.tsx`.  `gw` is the `editComicImage` oracle,
mapping the source image url and the full edit prompt to the outcome of
the round trip.  The guards before the call transcribe the source: a
silent early return when no panel is selected (or not found) or no slot
is active, an alerted early return when the active slot has no image. -/
def handleEditRun (st : AppState) (ep : String) (gw : String → String → Option String) : EditResult :=
  match st.selectedPanelId with
  | none => { state := st, gatewayCalled := none, alerted := false }
  | some pid =>
    match st.panels.find? (fun p => p.id == pid) with
    | none => { state := st, gatewayCalled := none, alerted := false }
    | some panel =>
      match st.activeSlotId with
      | none => { state := st, gatewayCalled := none, alerted := false }
      | some sid =>
        match panel.images.find? (fun im => im.id == sid) with
        | none => { state := st, gatewayCalled := none, alerted := true }
        | some im =>
          if im.url = "" then { state := st, gatewayCalled := none, alerted := true }
          else
            let req := fullEditPrompt st.characters ep
            match gw im.url req with
            | none =>
              { state := { st with loadingState := { isLoading := false, message := "" } }
                gatewayCalled := some (im.url, req)
                alerted := true }
            | some newUrl =>
              let updatedImages := panel.images.map (fun i =>
                if i.id = sid then { i with url := newUrl } else i)
              { state :=
                  { st with
                    panels := st.panels.map (fun p =>
                      if p.id = panel.id then { p with images := updatedImages } else p)
                    loadingState := { isLoading := false, message := "" } }
                gatewayCalled := some (im.url, req)
                alerted := false }

/-- The edit target resolved by the guards of `handleEdit`: the active
image of the selected panel, provided it has a non-empty url. -/
def editTarget (st : AppState) : Option ComicImage :=
  match st.selectedPanelId with
  | none => none
  | some pid =>
    match st.panels.find? (fun p => p.id == pid) with
    | none => none
    | some panel =>
      match st.activeSlotId with
      | none => none
      | some sid =>
        match panel.images.find? (fun im => im.id == sid) with
        | none => none
        | some im => if im.url = "" then none else some im

/-- `handleUpdateCaption` of `App.tsx`. -/
def handleUpdateCaption (st : AppState) (pid : Nat) (text : String) : AppState :=
  { st with panels := st.panels.map (fun p => if p.id = pid then { p with caption := text } else p) }

/-- `handleToggleOverlay` of `App.tsx`. -/
def handleToggleOverlay (st : AppState) (pid : Nat) (kind : OverlayKind) : AppState :=
  { st with panels := st.panels.map (fun p => if p.id = pid then { p with overlayType := kind } else p) }

/-- `handleUpdatePanelSpan` of `App.tsx`. -/
def handleUpdatePanelSpan (st : AppState) (pid : Nat) (span : Nat) : AppState :=
  { st with panels := st.panels.map (fun p => if p.id = pid then { p with colSpan := span } else p) }

/-- `handleDeletePanel` of `App.tsx`: filter the panel out; clear both
selection pointers when the deleted panel was the selected one. -/
def handleDeletePanel (st : AppState) (pid : Nat) : AppState :=
  let st' := { st with panels := st.panels.filter (fun p => p.id != pid) }
  if st.selectedPanelId = some pid then
    { st' with selectedPanelId := none, activeSlotId := none }
  else st'

/-- `handlePanelSelect` of `App.tsx`: when a different panel is chosen,
point the selection at it and at its first slot if it has one. -/
def handlePanelSelect (st : AppState) (pid : Nat) : AppState :=
  if st.selectedPanelId = some pid then st
  else
    let st' := { st with selectedPanelId := some pid }
    match st.panels.find? (fun p => p.id == pid) with
    | some panel =>
      match panel.images with
      | [] => st'
      | im :: _ => { st' with activeSlotId := some im.id }
    | none => st'

/-- `handleSlotSelect` of `App.tsx`: update both selection pointers;
an empty resolved slot forces create mode, a filled slot in create mode
switches to edit mode, anything else leaves the mode alone. -/
def handleSlotSelect (st : AppState) (pid sid : Nat) : AppState :=
  let st' := { st with selectedPanelId := some pid, activeSlotId := some sid }
  match st.panels.find? (fun p => p.id == pid) with
  | none => st'
  | some panel =>
    match panel.images.find? (fun im => im.id == sid) with
    | none => st'
    | some im =>
      if im.url = "" then { st' with mode := GenerationMode.CREATE }
      else if st.mode = GenerationMode.CREATE then { st' with mode := GenerationMode.EDIT }
      else st'

/-- The dependency watched by the `useEffect` of `Toolbox.tsx`:
`selectedPanel?.id`, where `selectedPanel` is the selected panel looked
up in the panel list. -/
def selectedPanelDep (st : AppState) : Option Nat :=
  match st.selectedPanelId with
  | none => none
  | some pid => (st.panels.find? (fun p => p.id == pid)).map (fun p => p.id)

/-- Body of the `useEffect` of `Toolbox.tsx`: when a panel is selected
and the mode is not story mode, force edit mode. -/
def toolboxModeEffect (st : AppState) : AppState :=
  match st.selectedPanelId with
  | none => st
  | some pid =>
    match st.panels.find? (fun p => p.id == pid) with
    | none => st
    | some _ =>
      if st.mode = GenerationMode.STORY then st
      else { st with mode := GenerationMode.EDIT }

/-- A complete slot-click event as the running app performs it: the
`handleSlotSelect` state update (the preceding `handlePanelSelect` call
of the slot click reads the same render state and is overridden by it),
followed by the `Toolbox` effect when its `selectedPanel?.id` dependency
changed between the renders before and after the update. -/
def slotSelectEvent (st : AppState) (pid sid : Nat) : AppState :=
  let st' := handleSlotSelect st pid sid
  if selectedPanelDep st' = selectedPanelDep st then st' else toolboxModeEffect st'

/-- `setCharacters` as exposed to the `Toolbox` via `onUpdateCharacters`:
the roster is replaced wholesale. -/
def setCharacters (st : AppState) (cs : List Character) : AppState :=
  { st with characters := cs }

/-- The panel-store operations of the application, each carrying the
user input and, for the two gateway operations, the oracle outcome of
the round trip. -/
inductive Op where
  | generate (scene : String) (style : ComicStyle) (gwRes : Option String)
  | editImage (ep : String) (gwRes : Option String)
  | setCaption (pid : Nat) (text : String)
  | setOverlay (pid : Nat) (kind : OverlayKind)
  | setSpan (pid : Nat) (span : Nat)
  | setLayout (pid : Nat) (L : PanelSplitLayout)
  | deletePanel (pid : Nat)
  | selectPanel (pid : Nat)
  | selectSlot (pid : Nat) (sid : Nat)
  | replaceRoster (cs : List Character)

/-- Interpretation of an operation as a state transition. -/
def applyOp (st : AppState) : Op → AppState
  | Op.generate scene style gwRes => handleGenerateRun st scene style (fun _ => gwRes)
  | Op.editImage ep gwRes => (handleEditRun st ep (fun _ _ => gwRes)).state
  | Op.setCaption pid text => handleUpdateCaption st pid text
  | Op.setOverlay pid kind => handleToggleOverlay st pid kind
  | Op.setSpan pid span => handleUpdatePanelSpan st pid span
  | Op.setLayout pid L => handleChangeSplitLayout st pid L
  | Op.deletePanel pid => handleDeletePanel st pid
  | Op.selectPanel pid => handlePanelSelect st pid
  | Op.selectSlot pid sid => slotSelectEvent st pid sid
  | Op.replaceRoster cs => setCharacters st cs

/-- States reachable from the empty store by the panel-store operations. -/
inductive Reachable : AppState → Prop where
  | init : Reachable initialAppState
  | step (op : Op) {st : AppState} : Reachable st → Reachable (applyOp st op)

/-- Strengthened store invariant: every panel has exactly the slot count
its split layout dictates, panel ids are pairwise distinct, and every
panel id is below the fresh-id supply. -/
def PanelsWellFormed (st : AppState) : Prop :=
  (∀ p ∈ st.panels, p.images.length = targetSlotCount p.splitLayout) ∧
    (st.panels.map (fun p => p.id)).Nodup ∧
    (∀ p ∈ st.panels, p.id < st.nextId)

/-! ### Basic facts about the split-layout reconciliation -/

theorem length_reconcileImages (n target : Nat) (imgs : List ComicImage) :
    (reconcileImages n target imgs).length = target := by
  unfold reconcileImages
  split
  · simp only [List.length_append, List.length_map, List.length_range]
    omega
  · simp only [List.length_take]
    omega

theorem ups_snd_length (pid : Nat) (L : PanelSplitLayout) :
    ∀ (n : Nat) (ps : List ComicPanel), ((updatePanelsSplit pid L n ps).2).length = ps.length := by
  intro n ps
  induction ps generalizing n with
  | nil => rfl
  | cons p ps ih =>
    by_cases h : p.id = pid <;> simp [updatePanelsSplit, h, ih]

theorem ups_fst_le (pid : Nat) (L : PanelSplitLayout) :
    ∀ (n : Nat) (ps : List ComicPanel), n ≤ (updatePanelsSplit pid L n ps).1 := by
  intro n ps
  induction ps generalizing n with
  | nil => simp [updatePanelsSplit]
  | cons p ps ih =>
    by_cases h : p.id = pid
    · simp only [updatePanelsSplit, h, if_pos]
      exact le_trans (Nat.le_add_right _ _) (ih _)
    · simp only [updatePanelsSplit, h, if_neg, not_false_iff]
      exact ih n

theorem ups_getElem (pid : Nat) (L : PanelSplitLayout) :
    ∀ (n : Nat) (ps : List ComicPanel) (i : Nat) (p : ComicPanel), ps[i]? = some p →
      ∃ c, n ≤ c ∧
        ((updatePanelsSplit pid L n ps).2)[i]? =
          some (if p.id = pid then applySplitLayout c L p else p) := by
  intro n ps
  induction ps generalizing n with
  | nil =>
    intro i p h
    simp at h
  | cons q ps ih =>
    intro i p h
    cases i with
    | zero =>
      simp only [List.getElem?_cons_zero, Option.some_inj] at h
      subst h
      refine ⟨n, le_refl n, ?_⟩
      by_cases hq : q.id = pid <;> simp [updatePanelsSplit, hq]
    | succ i =>
      simp only [List.getElem?_cons_succ] at h
      by_cases hq : q.id = pid
      · obtain ⟨c, hc, hres⟩ := ih (n + (targetSlotCount L - q.images.length)) i p h
        exact ⟨c, le_trans (Nat.le_add_right _ _) hc, by simp [updatePanelsSplit, hq, hres]⟩
      · obtain ⟨c, hc, hres⟩ := ih n i p h
        exact ⟨c, hc, by simp [updatePanelsSplit, hq, hres]⟩

theorem ups_mem (pid : Nat) (L : PanelSplitLayout) :
    ∀ (n : Nat) (ps : List ComicPanel) (q : ComicPanel), q ∈ (updatePanelsSplit pid L n ps).2 →
      (q ∈ ps ∧ q.id ≠ pid) ∨ ∃ c p, p ∈ ps ∧ p.id = pid ∧ q = applySplitLayout c L p := by
  intro n ps
  induction ps generalizing n with
  | nil =>
    intro q h
    simp [updatePanelsSplit] at h
  | cons p ps ih =>
    intro q h
    by_cases hp : p.id = pid
    · simp only [updatePanelsSplit, hp, if_pos, List.mem_cons] at h
      cases h with
      | inl h => exact Or.inr ⟨n, p, List.mem_cons_self p ps, hp, h⟩
      | inr h =>
        rcases ih _ q h with ⟨hm, hne⟩ | ⟨c, p', hm, hid, he⟩
        · exact Or.inl ⟨List.mem_cons_of_mem _ hm, hne⟩
        · exact Or.inr ⟨c, p', List.mem_cons_of_mem _ hm, hid, he⟩
    · simp only [updatePanelsSplit, hp, if_neg, not_false_iff, List.mem_cons] at h
      cases h with
      | inl h =>
        subst h
        exact Or.inl ⟨List.mem_cons_self _ _, hp⟩
      | inr h =>
        rcases ih _ q h with ⟨hm, hne⟩ | ⟨c, p', hm, hid, he⟩
        · exact Or.inl ⟨List.mem_cons_of_mem _ hm, hne⟩
        · exact Or.inr ⟨c, p', List.mem_cons_of_mem _ hm, hid, he⟩

theorem ups_map_id (pid : Nat) (L : PanelSplitLayout) :
    ∀ (n : Nat) (ps : List ComicPanel),
      ((updatePanelsSplit pid L n ps).2).map (fun p => p.id) = ps.map (fun p => p.id) := by
  intro n ps
  induction ps generalizing n with
  | nil => rfl
  | cons p ps ih =>
    by_cases h : p.id = pid <;> simp [updatePanelsSplit, h, ih, applySplitLayout]

theorem ups_post (pid : Nat) (L : PanelSplitLayout) (n : Nat) (ps : List ComicPanel) :
    ∀ q ∈ (updatePanelsSplit pid L n ps).2, q.id = pid →
      q.splitLayout = L ∧ q.images.length = targetSlotCount L := by
  intro q hq hid
  rcases ups_mem pid L n ps q hq with ⟨_, hne⟩ | ⟨c, p, _, _, rfl⟩
  · exact absurd hid hne
  · exact ⟨rfl, length_reconcileImages c (targetSlotCount L) p.images⟩

theorem ups_stable (pid : Nat) (L : PanelSplitLayout) :
    ∀ (n : Nat) (ps : List ComicPanel),
      (∀ p ∈ ps, p.id = pid → p.splitLayout = L ∧ p.images.length = targetSlotCount L) →
      updatePanelsSplit pid L n ps = (n, ps) := by
  intro n ps
  induction ps generalizing n with
  | nil => intro _; rfl
  | cons p ps ih =>
    intro h
    by_cases hp : p.id = pid
    · obtain ⟨hl, hlen⟩ := h p (List.mem_cons_self p ps) hp
      have hrec : reconcileImages n (targetSlotCount L) p.images = p.images := by
        unfold reconcileImages
        rw [if_neg (by omega)]
        rw [← hlen, List.take_length]
      have happ : applySplitLayout n L p = p := by
        unfold applySplitLayout
        rw [hrec, ← hl]
      have hsub : targetSlotCount L - p.images.length = 0 := by omega
      simp only [updatePanelsSplit, hp, if_pos, hsub, Nat.add_zero, happ]
      rw [ih n (fun q hq => h q (List.mem_cons_of_mem _ hq))]
    · simp only [updatePanelsSplit, hp, if_neg, not_false_iff]
      rw [ih n (fun q hq => h q (List.mem_cons_of_mem _ hq))]

/-! ### Sample states used by the witnesses -/

/-- A panel holding one filled slot under the SINGLE layout. -/
def samplePanelA : ComicPanel :=
  { id := 1
    images := [{ id := 2, url := "u", prompt := "a dog" }]
    splitLayout := PanelSplitLayout.SINGLE
    caption := ""
    aspect := "1:1"
    overlayType := OverlayKind.NONE
    colSpan := 1 }

/-- A state holding `samplePanelA` with nothing selected. -/
def sampleStateA : AppState :=
  { panels := [samplePanelA]
    selectedPanelId := none
    activeSlotId := none
    mode := GenerationMode.CREATE
    gridLayout := GridLayout.STANDARD
    gutterSize := GutterSize.MEDIUM
    characters := []
    loadingState := { isLoading := false, message := "" }
    nextId := 3 }

/-- A state holding `samplePanelA` with the panel and its slot selected. -/
def sampleStateB : AppState :=
  { panels := [samplePanelA]
    selectedPanelId := some 1
    activeSlotId := some 2
    mode := GenerationMode.CREATE
    gridLayout := GridLayout.STANDARD
    gutterSize := GutterSize.MEDIUM
    characters := []
    loadingState := { isLoading := false, message := "" }
    nextId := 3 }

/-! ### C1: slot count after a layout change follows the fixed table -/

/-- C1: after `handleChangeSplitLayout`, the targeted panel's image-slot
count equals the fixed table: SINGLE gives 1 slot, DOUBLE_V and DOUBLE_H
give 2, TRIPLE_V, TRIPLE_H, BIG_LEFT, BIG_RIGHT, BIG_TOP and BIG_BOTTOM
give 3, QUAD gives 4. -/
theorem split_layout_slot_count_table (st : AppState) (pid : Nat) (L : PanelSplitLayout)
    (q : ComicPanel) (hq : q ∈ (handleChangeSplitLayout st pid L).panels) (hid : q.id = pid) :
    q.images.length =
      (match L with
        | PanelSplitLayout.SINGLE => 1
        | PanelSplitLayout.DOUBLE_V => 2
        | PanelSplitLayout.DOUBLE_H => 2
        | PanelSplitLayout.TRIPLE_V => 3
        | PanelSplitLayout.TRIPLE_H => 3
        | PanelSplitLayout.BIG_LEFT => 3
        | PanelSplitLayout.BIG_RIGHT => 3
        | PanelSplitLayout.BIG_TOP => 3
        | PanelSplitLayout.BIG_BOTTOM => 3
        | PanelSplitLayout.QUAD => 4) := by
  have htable :
      (match L with
        | PanelSplitLayout.SINGLE => 1
        | PanelSplitLayout.DOUBLE_V => 2
        | PanelSplitLayout.DOUBLE_H => 2
        | PanelSplitLayout.TRIPLE_V => 3
        | PanelSplitLayout.TRIPLE_H => 3
        | PanelSplitLayout.BIG_LEFT => 3
        | PanelSplitLayout.BIG_RIGHT => 3
        | PanelSplitLayout.BIG_TOP => 3
        | PanelSplitLayout.BIG_BOTTOM => 3
        | PanelSplitLayout.QUAD => 4) = targetSlotCount L := by
    cases L <;> rfl
  rw [htable]
  exact (ups_post pid L st.nextId st.panels q hq hid).2

/-- Witness for C1: changing the SINGLE sample panel to QUAD yields four
slots on the concrete result panel. -/
theorem split_layout_slot_count_table_witness :
    ({ id := 1
       images := [{ id := 2, url := "u", prompt := "a dog" },
         { id := 3, url := "", prompt := "" }, { id := 4, url := "", prompt := "" },
         { id := 5, url := "", prompt := "" }]
       splitLayout := PanelSplitLayout.QUAD
       caption := ""
       aspect := "1:1"
       overlayType := OverlayKind.NONE
       colSpan := 1 } : ComicPanel).images.length = 4 :=
  split_layout_slot_count_table sampleStateA 1 PanelSplitLayout.QUAD _ (by decide) rfl

/-! ### C2: growing appends fresh empty slots, shrinking truncates -/

/-- C2: when a layout change raises the required slot count, the
targeted panel keeps all existing slots in order with their url and
prompt and only fresh empty slots (ids minted from the fresh supply,
hence distinct from every existing slot id, empty url, empty prompt)
are appended at the end; when it lowers the required count to N,
exactly the first N slots are kept and the rest are discarded.  All
non-slot fields except the layout tag are unchanged. -/
theorem split_layout_reconcile_preserves_slots (st : AppState) (pid : Nat)
    (L : PanelSplitLayout) (i : Nat) (p : ComicPanel)
    (hget : st.panels[i]? = some p) (hid : p.id = pid)
    (hfresh : ∀ q ∈ st.panels, ∀ im ∈ q.images, im.id < st.nextId) :
    ∃ q, (handleChangeSplitLayout st pid L).panels[i]? = some q ∧
      q.id = p.id ∧ q.splitLayout = L ∧ q.caption = p.caption ∧
      q.overlayType = p.overlayType ∧ q.colSpan = p.colSpan ∧ q.aspect = p.aspect ∧
      (targetSlotCount L ≤ p.images.length → q.images = p.images.take (targetSlotCount L)) ∧
      (p.images.length < targetSlotCount L →
        ∃ ns, q.images = p.images ++ ns ∧
          ns.length = targetSlotCount L - p.images.length ∧
          (∀ s ∈ ns, s.url = "" ∧ s.prompt = "") ∧
          (∀ s ∈ ns, ∀ q' ∈ st.panels, ∀ im ∈ q'.images, im.id ≠ s.id)) := by
  obtain ⟨c, hc, hres⟩ := ups_getElem pid L st.nextId st.panels i p hget
  rw [if_pos hid] at hres
  refine ⟨applySplitLayout c L p, hres, rfl, rfl, rfl, rfl, rfl, rfl, ?_, ?_⟩
  · intro hle
    show reconcileImages c (targetSlotCount L) p.images = _
    unfold reconcileImages
    rw [if_neg (by omega)]
  · intro hlt
    refine ⟨(List.range (targetSlotCount L - p.images.length)).map
        (fun j => { id := c + j, url := "", prompt := "" }), ?_, ?_, ?_, ?_⟩
    · show reconcileImages c (targetSlotCount L) p.images = _
      unfold reconcileImages
      rw [if_pos hlt]
    · simp
    · intro s hs
      simp only [List.mem_map, List.mem_range] at hs
      obtain ⟨j, _, rfl⟩ := hs
      exact ⟨rfl, rfl⟩
    · intro s hs q' hq' im him
      simp only [List.mem_map, List.mem_range] at hs
      obtain ⟨j, _, rfl⟩ := hs
      have h1 := hfresh q' hq' im him
      have h2 : st.nextId ≤ c + j := le_trans hc (Nat.le_add_right _ _)
      show im.id ≠ c + j
      omega

/-- Witness for C2: applied to the SINGLE sample panel changed to QUAD. -/
theorem split_layout_reconcile_preserves_slots_witness :
    ∃ q, (handleChangeSplitLayout sampleStateA 1 PanelSplitLayout.QUAD).panels[0]? = some q ∧
      q.splitLayout = PanelSplitLayout.QUAD ∧ q.images.take 1 = samplePanelA.images := by
  obtain ⟨q, hq, _, hlay, _, _, _, _, _, hgrow⟩ :=
    split_layout_reconcile_preserves_slots sampleStateA 1 PanelSplitLayout.QUAD 0 samplePanelA
      rfl rfl (by decide)
  obtain ⟨ns, hns, _, _, _⟩ := hgrow (by decide)
  refine ⟨q, hq, hlay, ?_⟩
  rw [hns]
  rfl

/-! ### C10: a layout change is idempotent -/

/-- C10: applying `handleChangeSplitLayout` with the same panel id and
layout tag twice in succession yields exactly the state of applying it
once: the second application changes no panel, no slot identity and no
other field (the fresh-id supply included). -/
theorem split_layout_change_idempotent (st : AppState) (pid : Nat) (L : PanelSplitLayout) :
    handleChangeSplitLayout (handleChangeSplitLayout st pid L) pid L =
      handleChangeSplitLayout st pid L := by
  have hstable : updatePanelsSplit pid L (handleChangeSplitLayout st pid L).nextId
      (handleChangeSplitLayout st pid L).panels =
      ((handleChangeSplitLayout st pid L).nextId, (handleChangeSplitLayout st pid L).panels) :=
    ups_stable pid L _ _ (fun q hq hid => ups_post pid L st.nextId st.panels q hq hid)
  show ({ handleChangeSplitLayout st pid L with
    panels := (updatePanelsSplit pid L (handleChangeSplitLayout st pid L).nextId
      (handleChangeSplitLayout st pid L).panels).2
    nextId := (updatePanelsSplit pid L (handleChangeSplitLayout st pid L).nextId
      (handleChangeSplitLayout st pid L).panels).1 } : AppState) = _
  rw [hstable]

/-! ### C5: deleting a panel and the selection pointers -/

/-- C5: `handleDeletePanel` removes exactly the panels carrying the given
id, keeps every other panel unchanged and in order, and clears both
selection pointers exactly when the deleted panel was the selected one. -/
theorem delete_panel_frame (st : AppState) (pid : Nat) :
    (∀ p ∈ (handleDeletePanel st pid).panels, p.id ≠ pid) ∧
    (∀ p ∈ st.panels, p.id ≠ pid → p ∈ (handleDeletePanel st pid).panels) ∧
    List.Sublist (handleDeletePanel st pid).panels st.panels ∧
    (handleDeletePanel st pid).characters = st.characters ∧
    (handleDeletePanel st pid).mode = st.mode ∧
    (st.selectedPanelId = some pid →
      (handleDeletePanel st pid).selectedPanelId = none ∧
        (handleDeletePanel st pid).activeSlotId = none) ∧
    (st.selectedPanelId ≠ some pid →
      (handleDeletePanel st pid).selectedPanelId = st.selectedPanelId ∧
        (handleDeletePanel st pid).activeSlotId = st.activeSlotId) := by
  have hall : ∀ p ∈ st.panels.filter (fun p => p.id != pid), p.id ≠ pid := by
    intro p hp
    have hb := List.of_mem_filter hp
    simpa using hb
  have hkeep : ∀ p ∈ st.panels, p.id ≠ pid → p ∈ st.panels.filter (fun p => p.id != pid) := by
    intro p hp hne
    exact List.mem_filter.mpr ⟨hp, by simpa using hne⟩
  have hsub : List.Sublist (st.panels.filter (fun p => p.id != pid)) st.panels :=
    List.filter_sublist _
  unfold handleDeletePanel
  by_cases hsel : st.selectedPanelId = some pid
  · rw [if_pos hsel]
    exact ⟨hall, hkeep, hsub, rfl, rfl, fun _ => ⟨rfl, rfl⟩, fun h => absurd hsel h⟩
  · rw [if_neg hsel]
    exact ⟨hall, hkeep, hsub, rfl, rfl, fun h => absurd h hsel, fun _ => ⟨rfl, rfl⟩⟩

/-- Witness for C5: deleting the selected sample panel clears both
selection pointers. -/
theorem delete_panel_frame_witness :
    (handleDeletePanel sampleStateB 1).selectedPanelId = none ∧
      (handleDeletePanel sampleStateB 1).activeSlotId = none := by
  have h := delete_panel_frame sampleStateB 1
  exact h.2.2.2.2.2.1 rfl

/-! ### C8: an edit without an image target is rejected pre-gateway -/

/-- C8: when the edit target does not resolve to a slot with an image —
no panel selected, selected panel not found, no slot active, active
slot not found, or active slot with an empty url — `handleEdit` makes no
gateway call and applies no state mutation; whenever the selection did
resolve to a panel and an active slot id (so the failure is an imageless
slot), the rejection alert is raised. -/
theorem edit_rejected_without_image (st : AppState) (ep : String)
    (gw : String → String → Option String) (h : editTarget st = none) :
    (handleEditRun st ep gw).gatewayCalled = none ∧
    (handleEditRun st ep gw).state = st ∧
    (∀ pid panel sid, st.selectedPanelId = some pid →
      st.panels.find? (fun p => p.id == pid) = some panel →
      st.activeSlotId = some sid →
      (handleEditRun st ep gw).alerted = true) := by
  unfold editTarget at h
  unfold handleEditRun
  cases hsel : st.selectedPanelId with
  | none =>
    simp only [hsel]
    refine ⟨by trivial, by trivial, ?_⟩
    intro pid panel sid hs _ _
    exact absurd hs (by simp)
  | some pid0 =>
    simp only [hsel] at h ⊢
    cases hfind : st.panels.find? (fun p => p.id == pid0) with
    | none =>
      simp only [hfind] at h ⊢
      refine ⟨by trivial, by trivial, ?_⟩
      intro pid panel sid hs hf _
      injection hs with hs
      subst hs
      rw [hfind] at hf
      exact absurd hf (by simp)
    | some panel0 =>
      simp only [hfind] at h ⊢
      cases hact : st.activeSlotId with
      | none =>
        simp only [hact] at h ⊢
        refine ⟨by trivial, by trivial, ?_⟩
        intro pid panel sid _ _ ha
        exact absurd ha (by simp)
      | some sid0 =>
        simp only [hact] at h ⊢
        cases hfi : panel0.images.find? (fun im => im.id == sid0) with
        | none =>
          simp only [hfi] at h ⊢
          exact ⟨by trivial, by trivial, fun _ _ _ _ _ _ => by trivial⟩
        | some im0 =>
          simp only [hfi] at h ⊢
          by_cases hurl : im0.url = ""
          · rw [if_pos hurl]
            exact ⟨by trivial, by trivial, fun _ _ _ _ _ _ => by trivial⟩
          · rw [if_neg hurl] at h
            exact absurd h (by simp)

/-- Witness for C8: an edit request against the empty sample slot makes
no gateway call and leaves the state untouched. -/
theorem edit_rejected_without_image_witness :
    (handleEditRun sampleStateA "add a cape" (fun _ _ => some "v")).gatewayCalled = none ∧
      (handleEditRun sampleStateA "add a cape" (fun _ _ => some "v")).state = sampleStateA := by
  have h := edit_rejected_without_image sampleStateA "add a cape" (fun _ _ => some "v") rfl
  exact ⟨h.1, h.2.1⟩

/-! ### C9: a failed gateway call mutates no state -/

/-- C9: when the generate or edit gateway call fails (throws or yields
no usable payload, modelled by the oracle returning `none`), the panel
list, both selection pointers and the character roster are exactly as
before the request and the loading flag ends cleared; for the edit path
the loading clause is stated for requests that actually reached the
gateway (`gatewayCalled` is set), the earlier guards not touching the
loading flag at all. -/
theorem gateway_failure_preserves_state (st : AppState) (scene : String) (style : ComicStyle)
    (ep : String) (gwg : String → Option String) (gwe : String → String → Option String)
    (hg : ∀ s, gwg s = none) (he : ∀ u q, gwe u q = none) :
    ((handleGenerateRun st scene style gwg).panels = st.panels ∧
      (handleGenerateRun st scene style gwg).selectedPanelId = st.selectedPanelId ∧
      (handleGenerateRun st scene style gwg).activeSlotId = st.activeSlotId ∧
      (handleGenerateRun st scene style gwg).characters = st.characters ∧
      (handleGenerateRun st scene style gwg).loadingState.isLoading = false) ∧
    ((handleEditRun st ep gwe).state.panels = st.panels ∧
      (handleEditRun st ep gwe).state.selectedPanelId = st.selectedPanelId ∧
      (handleEditRun st ep gwe).state.activeSlotId = st.activeSlotId ∧
      (handleEditRun st ep gwe).state.characters = st.characters ∧
      ((handleEditRun st ep gwe).gatewayCalled.isSome = true →
        (handleEditRun st ep gwe).state.loadingState.isLoading = false)) := by
  constructor
  · unfold handleGenerateRun
    rw [hg (composedPrompt style st.characters scene)]
    exact ⟨rfl, rfl, rfl, rfl, rfl⟩
  · unfold handleEditRun
    cases hsel : st.selectedPanelId with
    | none => exact ⟨rfl, hsel, rfl, rfl, fun hc => by simp at hc⟩
    | some pid0 =>
      dsimp only
      cases hfind : st.panels.find? (fun p => p.id == pid0) with
      | none => exact ⟨rfl, hsel, rfl, rfl, fun hc => by simp at hc⟩
      | some panel0 =>
        dsimp only
        cases hact : st.activeSlotId with
        | none => exact ⟨rfl, hsel, hact, rfl, fun hc => by simp at hc⟩
        | some sid0 =>
          dsimp only
          cases hfi : panel0.images.find? (fun im => im.id == sid0) with
          | none => exact ⟨rfl, hsel, hact, rfl, fun hc => by simp at hc⟩
          | some im0 =>
            dsimp only
            by_cases hurl : im0.url = ""
            · rw [if_pos hurl]
              exact ⟨rfl, hsel, hact, rfl, fun hc => by simp at hc⟩
            · rw [if_neg hurl]
              simp only [he]
              exact ⟨by trivial, by trivial, by trivial, by trivial, fun _ => by trivial⟩

/-- Witness for C9: both failing calls on the selected, filled sample
state leave the panel list unchanged. -/
theorem gateway_failure_preserves_state_witness :
    (handleGenerateRun sampleStateB "a cat" ComicStyle.NOIR (fun _ => none)).panels
        = sampleStateB.panels ∧
      (handleEditRun sampleStateB "add a hat" (fun _ _ => none)).state.panels
        = sampleStateB.panels := by
  have h := gateway_failure_preserves_state sampleStateB "a cat" ComicStyle.NOIR "add a hat"
    (fun _ => none) (fun _ _ => none) (fun _ => rfl) (fun _ _ => rfl)
  exact ⟨h.1.1, h.2.1⟩

/-! ### C4: slot selection and the UI mode (corrected) -/

/-- A panel whose only slot is empty. -/
def cePanel : ComicPanel :=
  { id := 1
    images := [{ id := 2, url := "", prompt := "" }]
    splitLayout := PanelSplitLayout.SINGLE
    caption := ""
    aspect := "1:1"
    overlayType := OverlayKind.NONE
    colSpan := 1 }

/-- A create-mode state holding `cePanel` with nothing selected. -/
def ceState : AppState :=
  { panels := [cePanel]
    selectedPanelId := none
    activeSlotId := none
    mode := GenerationMode.CREATE
    gridLayout := GridLayout.STANDARD
    gutterSize := GutterSize.MEDIUM
    characters := []
    loadingState := { isLoading := false, message := "" }
    nextId := 3 }

/-- Counterexample to C4 as stated: clicking the empty slot of a panel
that was not the selected one ends in edit mode, not create mode — the
`Toolbox` effect fires because `selectedPanel?.id` changed and overrides
the create mode set by `handleSlotSelect`. -/
theorem slot_select_create_mode_counterexample :
    cePanel.images = [{ id := 2, url := "", prompt := "" }] ∧
      ceState.panels = [cePanel] ∧
      ceState.selectedPanelId = none ∧
      ceState.mode = GenerationMode.CREATE ∧
      (slotSelectEvent ceState 1 2).mode = GenerationMode.EDIT :=
  ⟨rfl, rfl, rfl, rfl, by decide⟩

/-- C4 amended: for the store operation `handleSlotSelect` itself the
claim holds in full — selecting an empty slot yields create mode,
selecting a filled slot in create mode switches to edit mode, selecting
a filled slot in any other mode leaves the mode unchanged, and no panel
data is mutated, only the two selection pointers and the mode field.
Additionally, when the click moves the `selectedPanel?.id` dependency
(so a different panel becomes selected), the `Toolbox` effect of the
full event subsequently forces edit mode unless the state is in story
mode — this is what overrides the empty-slot create-mode outcome in the
counterexample. -/
theorem slot_select_mode_amended (st : AppState) (pid sid : Nat) (panel : ComicPanel)
    (im : ComicImage)
    (hfind : st.panels.find? (fun p => p.id == pid) = some panel)
    (hfi : panel.images.find? (fun i => i.id == sid) = some im) :
    (handleSlotSelect st pid sid).panels = st.panels ∧
    (handleSlotSelect st pid sid).characters = st.characters ∧
    (handleSlotSelect st pid sid).loadingState = st.loadingState ∧
    (handleSlotSelect st pid sid).selectedPanelId = some pid ∧
    (handleSlotSelect st pid sid).activeSlotId = some sid ∧
    (im.url = "" → (handleSlotSelect st pid sid).mode = GenerationMode.CREATE) ∧
    (im.url ≠ "" → st.mode = GenerationMode.CREATE →
      (handleSlotSelect st pid sid).mode = GenerationMode.EDIT) ∧
    (im.url ≠ "" → st.mode ≠ GenerationMode.CREATE →
      (handleSlotSelect st pid sid).mode = st.mode) ∧
    (selectedPanelDep (handleSlotSelect st pid sid) ≠ selectedPanelDep st →
      (handleSlotSelect st pid sid).mode ≠ GenerationMode.STORY →
      (slotSelectEvent st pid sid).mode = GenerationMode.EDIT) := by
  by_cases hurl : im.url = ""
  · have hred : handleSlotSelect st pid sid =
        { st with
          selectedPanelId := some pid
          activeSlotId := some sid
          mode := GenerationMode.CREATE } := by
      unfold handleSlotSelect
      rw [hfind]
      dsimp only
      rw [hfi]
      dsimp only
      rw [if_pos hurl]
    refine ⟨by rw [hred], by rw [hred], by rw [hred], by rw [hred], by rw [hred],
      fun _ => by rw [hred], fun hne _ => absurd hurl hne, fun hne _ => absurd hurl hne, ?_⟩
    intro hne _
    unfold slotSelectEvent
    rw [if_neg hne, hred]
    simp [toolboxModeEffect, hfind]
  · by_cases hmode : st.mode = GenerationMode.CREATE
    · have hred : handleSlotSelect st pid sid =
          { st with
            selectedPanelId := some pid
            activeSlotId := some sid
            mode := GenerationMode.EDIT } := by
        unfold handleSlotSelect
        rw [hfind]
        dsimp only
        rw [hfi]
        dsimp only
        rw [if_neg hurl, if_pos hmode]
      refine ⟨by rw [hred], by rw [hred], by rw [hred], by rw [hred], by rw [hred],
        fun h => absurd h hurl, fun _ _ => by rw [hred], fun _ hm => absurd hmode hm, ?_⟩
      intro hne _
      unfold slotSelectEvent
      rw [if_neg hne, hred]
      simp [toolboxModeEffect, hfind]
    · have hred : handleSlotSelect st pid sid =
          { st with
            selectedPanelId := some pid
            activeSlotId := some sid } := by
        unfold handleSlotSelect
        rw [hfind]
        dsimp only
        rw [hfi]
        dsimp only
        rw [if_neg hurl, if_neg hmode]
      refine ⟨by rw [hred], by rw [hred], by rw [hred], by rw [hred], by rw [hred],
        fun h => absurd h hurl, fun _ hm => absurd hm hmode, fun _ _ => by rw [hred], ?_⟩
      intro hne hns
      unfold slotSelectEvent
      rw [if_neg hne, hred]
      rw [hred] at hns
      simp only [toolboxModeEffect, hfind]
      simp [hns]

/-- Witness for the amended C4: selecting the filled sample slot while
in create mode switches the mode to edit and leaves all panels intact. -/
theorem slot_select_mode_amended_witness :
    (handleSlotSelect sampleStateB 1 2).mode = GenerationMode.EDIT ∧
      (handleSlotSelect sampleStateB 1 2).panels = sampleStateB.panels := by
  have h := slot_select_mode_amended sampleStateB 1 2 samplePanelA
    { id := 2, url := "u", prompt := "a dog" } rfl rfl
  exact ⟨h.2.2.2.2.2.2.1 (by decide) rfl, h.1⟩

/-! ### C3: the slot-count invariant over all reachable states -/

theorem map_panel_id_eq (ps : List ComicPanel) (f : ComicPanel → ComicPanel)
    (hid : ∀ p, (f p).id = p.id) :
    (ps.map f).map (fun p => p.id) = ps.map (fun p => p.id) := by
  induction ps with
  | nil => rfl
  | cons p ps ih => simp [hid, ih]

theorem wf_map_pointwise (st : AppState) (f : ComicPanel → ComicPanel)
    (hid : ∀ p, (f p).id = p.id)
    (hlen : ∀ p, (f p).images.length = p.images.length)
    (hlay : ∀ p, (f p).splitLayout = p.splitLayout)
    (hwf : PanelsWellFormed st) :
    PanelsWellFormed { st with panels := st.panels.map f } := by
  obtain ⟨h1, h2, h3⟩ := hwf
  refine ⟨?_, ?_, ?_⟩
  · intro p hp
    rw [List.mem_map] at hp
    obtain ⟨q, hq, rfl⟩ := hp
    rw [hlen, hlay]
    exact h1 q hq
  · show ((st.panels.map f).map (fun p => p.id)).Nodup
    rw [map_panel_id_eq st.panels f hid]
    exact h2
  · intro p hp
    rw [List.mem_map] at hp
    obtain ⟨q, hq, rfl⟩ := hp
    show (f q).id < st.nextId
    rw [hid]
    exact h3 q hq

theorem wf_of_same_panels (st st' : AppState) (hp : st'.panels = st.panels)
    (hn : st.nextId ≤ st'.nextId) (hwf : PanelsWellFormed st) : PanelsWellFormed st' := by
  obtain ⟨h1, h2, h3⟩ := hwf
  refine ⟨?_, ?_, ?_⟩
  · intro p hpm
    rw [hp] at hpm
    exact h1 p hpm
  · rw [hp]
    exact h2
  · intro p hpm
    rw [hp] at hpm
    exact lt_of_lt_of_le (h3 p hpm) hn

theorem wf_fill_full (st : AppState) (panel : ComicPanel) (hmem : panel ∈ st.panels)
    (qid : Nat) (hqid : panel.id = qid)
    (u : List ComicImage) (hu : u.length = panel.images.length)
    (hwf : PanelsWellFormed st) (st' : AppState)
    (hp : st'.panels = st.panels.map (fun p => if p.id = qid then { p with images := u } else p))
    (hn : st'.nextId = st.nextId) : PanelsWellFormed st' := by
  obtain ⟨h1, h2, h3⟩ := hwf
  have hid : ∀ p : ComicPanel,
      ((if p.id = qid then { p with images := u } else p) : ComicPanel).id = p.id := by
    intro p
    split <;> rfl
  refine ⟨?_, ?_, ?_⟩
  · intro p hp2
    rw [hp, List.mem_map] at hp2
    obtain ⟨q, hq, rfl⟩ := hp2
    by_cases h : q.id = qid
    · have hqe : q = panel := List.inj_on_of_nodup_map h2 hq hmem (by rw [h, hqid])
      subst hqe
      rw [if_pos h]
      show u.length = targetSlotCount q.splitLayout
      rw [hu]
      exact h1 q hq
    · rw [if_neg h]
      exact h1 q hq
  · rw [hp, map_panel_id_eq _ _ hid]
    exact h2
  · intro p hp2
    rw [hp, List.mem_map] at hp2
    obtain ⟨q, hq, rfl⟩ := hp2
    rw [hn, hid]
    exact h3 q hq

theorem handlePanelSelect_frame (st : AppState) (pid : Nat) :
    (handlePanelSelect st pid).panels = st.panels ∧
      (handlePanelSelect st pid).nextId = st.nextId := by
  unfold handlePanelSelect
  by_cases h : st.selectedPanelId = some pid
  · rw [if_pos h]
    exact ⟨rfl, rfl⟩
  · rw [if_neg h]
    cases hf : st.panels.find? (fun p => p.id == pid) with
    | none => exact ⟨rfl, rfl⟩
    | some panel =>
      dsimp only
      cases panel.images with
      | nil => exact ⟨rfl, rfl⟩
      | cons im rest => exact ⟨rfl, rfl⟩

theorem handleSlotSelect_frame (st : AppState) (pid sid : Nat) :
    (handleSlotSelect st pid sid).panels = st.panels ∧
      (handleSlotSelect st pid sid).nextId = st.nextId := by
  unfold handleSlotSelect
  cases hf : st.panels.find? (fun p => p.id == pid) with
  | none => exact ⟨rfl, rfl⟩
  | some panel =>
    dsimp only
    cases hi : panel.images.find? (fun im => im.id == sid) with
    | none => exact ⟨rfl, rfl⟩
    | some im =>
      dsimp only
      by_cases hurl : im.url = ""
      · rw [if_pos hurl]
        exact ⟨rfl, rfl⟩
      · rw [if_neg hurl]
        by_cases hm : st.mode = GenerationMode.CREATE
        · rw [if_pos hm]
          exact ⟨rfl, rfl⟩
        · rw [if_neg hm]
          exact ⟨rfl, rfl⟩

theorem toolboxModeEffect_frame (st : AppState) :
    (toolboxModeEffect st).panels = st.panels ∧ (toolboxModeEffect st).nextId = st.nextId := by
  unfold toolboxModeEffect
  cases st.selectedPanelId with
  | none => exact ⟨rfl, rfl⟩
  | some pid =>
    dsimp only
    cases st.panels.find? (fun p => p.id == pid) with
    | none => exact ⟨rfl, rfl⟩
    | some panel =>
      dsimp only
      by_cases hm : st.mode = GenerationMode.STORY
      · rw [if_pos hm]
        exact ⟨rfl, rfl⟩
      · rw [if_neg hm]
        exact ⟨rfl, rfl⟩

theorem slotSelectEvent_frame (st : AppState) (pid sid : Nat) :
    (slotSelectEvent st pid sid).panels = st.panels ∧
      (slotSelectEvent st pid sid).nextId = st.nextId := by
  unfold slotSelectEvent
  dsimp only
  by_cases h : selectedPanelDep (handleSlotSelect st pid sid) = selectedPanelDep st
  · rw [if_pos h]
    exact handleSlotSelect_frame st pid sid
  · rw [if_neg h]
    obtain ⟨hp, hn⟩ := handleSlotSelect_frame st pid sid
    obtain ⟨hp', hn'⟩ := toolboxModeEffect_frame (handleSlotSelect st pid sid)
    exact ⟨hp'.trans hp, hn'.trans hn⟩

theorem applyOp_preserves_wf (st : AppState) (op : Op) (hwf : PanelsWellFormed st) :
    PanelsWellFormed (applyOp st op) := by
  obtain ⟨h1, h2, h3⟩ := hwf
  cases op with
  | generate scene style gwRes =>
    show PanelsWellFormed (handleGenerateRun st scene style (fun _ => gwRes))
    unfold handleGenerateRun
    dsimp only
    cases gwRes with
    | none => exact ⟨h1, h2, h3⟩
    | some imageUrl =>
      dsimp only
      have hcreate : PanelsWellFormed
          { st with
            panels := st.panels ++
              [{ id := st.nextId
                 images := [{ id := st.nextId + 1, url := imageUrl, prompt := scene }]
                 splitLayout := PanelSplitLayout.SINGLE
                 caption := ""
                 aspect := "1:1"
                 overlayType := OverlayKind.NONE
                 colSpan := 1 }]
            nextId := st.nextId + 2
            loadingState := { isLoading := false, message := "" } } := by
        refine ⟨?_, ?_, ?_⟩
        · intro p hp
          rw [List.mem_append] at hp
          cases hp with
          | inl h => exact h1 p h
          | inr h =>
            rw [List.mem_singleton] at h
            subst h
            rfl
        · simp only [List.map_append, List.nodup_append]
          refine ⟨h2, by simp, ?_⟩
          intro a ha hb
          rw [List.mem_map] at ha
          obtain ⟨p, hpm, rfl⟩ := ha
          simp only [List.map_cons, List.map_nil, List.mem_singleton] at hb
          have := h3 p hpm
          omega
        · intro p hp
          rw [List.mem_append] at hp
          cases hp with
          | inl h =>
            show p.id < st.nextId + 2
            have := h3 p h
            omega
          | inr h =>
            rw [List.mem_singleton] at h
            subst h
            show st.nextId < st.nextId + 2
            omega
      cases hsel : st.selectedPanelId with
      | none => exact hcreate
      | some pid =>
        cases hact : st.activeSlotId with
        | none => exact hcreate
        | some sid =>
          dsimp only
          cases hfind : st.panels.find? (fun p => p.id == pid) with
          | none => exact ⟨h1, h2, h3⟩
          | some panel =>
            dsimp only
            have hmem : panel ∈ st.panels := List.mem_of_find?_eq_some hfind
            have hqid : panel.id = pid := by
              have := List.find?_some hfind
              simpa using this
            exact wf_fill_full st panel hmem pid hqid
              (panel.images.map (fun im =>
                if im.id = sid then { im with url := imageUrl, prompt := scene } else im))
              (by rw [List.length_map]) ⟨h1, h2, h3⟩ _ rfl rfl
  | editImage ep gwRes =>
    show PanelsWellFormed (handleEditRun st ep (fun _ _ => gwRes)).state
    unfold handleEditRun
    cases hsel : st.selectedPanelId with
    | none => exact ⟨h1, h2, h3⟩
    | some pid =>
      dsimp only
      cases hfind : st.panels.find? (fun p => p.id == pid) with
      | none => exact ⟨h1, h2, h3⟩
      | some panel =>
        dsimp only
        cases hact : st.activeSlotId with
        | none => exact ⟨h1, h2, h3⟩
        | some sid =>
          dsimp only
          cases hfi : panel.images.find? (fun im => im.id == sid) with
          | none => exact ⟨h1, h2, h3⟩
          | some im =>
            dsimp only
            by_cases hurl : im.url = ""
            · rw [if_pos hurl]
              exact ⟨h1, h2, h3⟩
            · rw [if_neg hurl]
              cases gwRes with
              | none => exact ⟨h1, h2, h3⟩
              | some newUrl =>
                dsimp only
                have hmem : panel ∈ st.panels := List.mem_of_find?_eq_some hfind
                exact wf_fill_full st panel hmem panel.id rfl
                  (panel.images.map (fun i =>
                    if i.id = sid then { i with url := newUrl } else i))
                  (by rw [List.length_map]) ⟨h1, h2, h3⟩ _ rfl rfl
  | setCaption pid text =>
    show PanelsWellFormed (handleUpdateCaption st pid text)
    unfold handleUpdateCaption
    exact wf_map_pointwise st _ (fun p => by split <;> rfl) (fun p => by split <;> rfl)
      (fun p => by split <;> rfl) ⟨h1, h2, h3⟩
  | setOverlay pid kind =>
    show PanelsWellFormed (handleToggleOverlay st pid kind)
    unfold handleToggleOverlay
    exact wf_map_pointwise st _ (fun p => by split <;> rfl) (fun p => by split <;> rfl)
      (fun p => by split <;> rfl) ⟨h1, h2, h3⟩
  | setSpan pid span =>
    show PanelsWellFormed (handleUpdatePanelSpan st pid span)
    unfold handleUpdatePanelSpan
    exact wf_map_pointwise st _ (fun p => by split <;> rfl) (fun p => by split <;> rfl)
      (fun p => by split <;> rfl) ⟨h1, h2, h3⟩
  | setLayout pid L =>
    show PanelsWellFormed (handleChangeSplitLayout st pid L)
    refine ⟨?_, ?_, ?_⟩
    · intro p hp
      rcases ups_mem pid L st.nextId st.panels p hp with ⟨hm, _⟩ | ⟨c, q, hm, _, rfl⟩
      · exact h1 p hm
      · exact length_reconcileImages c (targetSlotCount L) q.images
    · show ((updatePanelsSplit pid L st.nextId st.panels).2.map (fun p => p.id)).Nodup
      rw [ups_map_id]
      exact h2
    · intro p hp
      rcases ups_mem pid L st.nextId st.panels p hp with ⟨hm, _⟩ | ⟨c, q, hm, _, rfl⟩
      · exact lt_of_lt_of_le (h3 p hm) (ups_fst_le pid L st.nextId st.panels)
      · show q.id < _
        exact lt_of_lt_of_le (h3 q hm) (ups_fst_le pid L st.nextId st.panels)
  | deletePanel pid =>
    have hfilter : PanelsWellFormed
        { st with panels := st.panels.filter (fun p => p.id != pid) } := by
      refine ⟨?_, ?_, ?_⟩
      · intro p hp
        exact h1 p (List.mem_of_mem_filter hp)
      · show ((st.panels.filter (fun p => p.id != pid)).map (fun p => p.id)).Nodup
        exact List.Nodup.sublist (List.Sublist.map _ (List.filter_sublist _)) h2
      · intro p hp
        exact h3 p (List.mem_of_mem_filter hp)
    show PanelsWellFormed (handleDeletePanel st pid)
    unfold handleDeletePanel
    by_cases hsel : st.selectedPanelId = some pid
    · rw [if_pos hsel]
      exact hfilter
    · rw [if_neg hsel]
      exact hfilter
  | selectPanel pid =>
    obtain ⟨hp, hn⟩ := handlePanelSelect_frame st pid
    exact wf_of_same_panels st _ hp (le_of_eq hn.symm) ⟨h1, h2, h3⟩
  | selectSlot pid sid =>
    obtain ⟨hp, hn⟩ := slotSelectEvent_frame st pid sid
    exact wf_of_same_panels st _ hp (le_of_eq hn.symm) ⟨h1, h2, h3⟩
  | replaceRoster cs =>
    exact wf_of_same_panels st _ rfl (le_refl _) ⟨h1, h2, h3⟩

theorem reachable_wf (st : AppState) (h : Reachable st) : PanelsWellFormed st := by
  induction h with
  | init =>
    refine ⟨?_, ?_, ?_⟩
    · intro p hp
      exact absurd hp (List.not_mem_nil p)
    · exact List.nodup_nil
    · intro p hp
      exact absurd hp (List.not_mem_nil p)
  | step op h ih => exact applyOp_preserves_wf _ op ih

/-- C3: in every state reachable from the empty store by the panel-store
operations (generate with either branch, edit, caption, overlay, span,
layout change, delete, selection, roster replacement), every panel's
number of image slots equals the slot count dictated by its current
split-layout tag. -/
theorem reachable_slot_count_invariant (st : AppState) (h : Reachable st) :
    ∀ p ∈ st.panels, p.images.length = targetSlotCount p.splitLayout :=
  (reachable_wf st h).1

/-- Witness for C3: the state reached by one successful generation from
the empty store contains the single fresh panel, whose slot count is
that of its SINGLE layout. -/
theorem reachable_slot_count_invariant_witness :
    ({ id := 0
       images := [{ id := 1, url := "u", prompt := "a dog" }]
       splitLayout := PanelSplitLayout.SINGLE
       caption := ""
       aspect := "1:1"
       overlayType := OverlayKind.NONE
       colSpan := 1 } : ComicPanel).images.length =
      targetSlotCount PanelSplitLayout.SINGLE := by
  have h := reachable_slot_count_invariant
    (applyOp initialAppState (Op.generate "a dog" ComicStyle.NOIR (some "u")))
    (Reachable.step (Op.generate "a dog" ComicStyle.NOIR (some "u")) Reachable.init)
  exact h _ (by decide)

/-! ### String lemmas for the composed prompt -/

/-- A pattern occurs as a contiguous segment of a character list. -/
def hasSegment (pat l : List Char) : Prop :=
  ∃ l₁ l₂, l = l₁ ++ pat ++ l₂

theorem dropWhile_append_left {p : Char → Bool} (l₁ l₂ : List Char)
    (h : l₁.dropWhile p ≠ []) :
    (l₁ ++ l₂).dropWhile p = l₁.dropWhile p ++ l₂ := by
  induction l₁ with
  | nil => exact absurd rfl h
  | cons a l ih =>
    by_cases hp : p a
    · rw [List.dropWhile_cons_of_pos hp] at h
      rw [List.cons_append, List.dropWhile_cons_of_pos hp, List.dropWhile_cons_of_pos hp]
      exact ih h
    · rw [List.cons_append, List.dropWhile_cons_of_neg hp, List.dropWhile_cons_of_neg hp]
      rfl

theorem jsTrimData_decomp (a m t a' t' : List Char)
    (ha : a.dropWhile Char.isWhitespace = a') (hane : a' ≠ [])
    (ht : t.reverse.dropWhile Char.isWhitespace = t'.reverse) (htne : t'.reverse ≠ []) :
    jsTrimData (a ++ m ++ t) = a' ++ m ++ t' := by
  unfold jsTrimData
  rw [List.append_assoc]
  rw [dropWhile_append_left a (m ++ t) (by rw [ha]; exact hane)]
  rw [ha]
  rw [← List.append_assoc]
  rw [List.reverse_append]
  rw [dropWhile_append_left t.reverse ((a' ++ m).reverse) (by rw [ht]; exact htne)]
  rw [ht]
  rw [← List.reverse_append]
  rw [List.reverse_reverse]

/-- The composed prompt is the template with leading and trailing
whitespace removed: the trim stops at the first and last printable
characters of the surrounding literals. -/
theorem composedPrompt_data (style : ComicStyle) (chars : List Character) (scene : String) :
    (composedPrompt style chars scene).data =
      "Art Style: ".data ++
        ((getStylePrompt style).data ++ ".\n      ".data ++ (characterClause chars).data ++
          "\n      Scene Description: ".data ++ scene.data) ++
        ".\n      (Ensure consistent character details). high quality masterpiece.".data := by
  have hdata : (generationTemplate (getStylePrompt style) (characterClause chars) scene).data =
      "\n      Art Style: ".data ++
        ((getStylePrompt style).data ++ ".\n      ".data ++ (characterClause chars).data ++
          "\n      Scene Description: ".data ++ scene.data) ++
        ".\n      (Ensure consistent character details). high quality masterpiece.\n    ".data := by
    unfold generationTemplate
    simp [List.append_assoc]
  show jsTrimData (generationTemplate (getStylePrompt style) (characterClause chars) scene).data = _
  rw [hdata]
  rw [jsTrimData_decomp _ _ _ ("Art Style: ".data)
    (".\n      (Ensure consistent character details). high quality masterpiece.".data)
    (by decide) (by decide) (by decide) (by decide)]

theorem characterEntry_length (c : Character) : 2 ≤ (characterEntry c).length := by
  unfold characterEntry
  rw [String.length_append, String.length_append]
  have h2 : (": " : String).length = 2 := rfl
  omega

theorem jsJoin_entries_length (c : Character) (rest : List String) :
    2 ≤ (jsJoin ". " (characterEntry c :: rest)).length := by
  cases rest with
  | nil => exact characterEntry_length c
  | cons y ys =>
    show 2 ≤ (characterEntry c ++ ". " ++ jsJoin ". " (y :: ys)).length
    rw [String.length_append, String.length_append]
    have h := characterEntry_length c
    omega

theorem context_ne_empty (c : Character) (cs : List Character) :
    getCharacterContextString (c :: cs) ≠ "" := by
  unfold getCharacterContextString
  rw [if_neg (by simp), List.map_cons]
  intro h
  have hlen := congrArg String.length h
  have h2 := jsJoin_entries_length c (cs.map characterEntry)
  have h0 : ("" : String).length = 0 := rfl
  omega

/-! ### C6: the roster clause in the composed prompt -/

/-- C6: with an empty roster the composed generation prompt is exactly
the template with nothing in the roster-clause position; with a
non-empty roster the prompt contains the clause built from one
"name: description" entry per character, in roster order, joined by a
period-space across all characters. -/
theorem roster_clause_in_composed_prompt (style : ComicStyle) (chars : List Character)
    (scene : String) :
    (chars = [] →
      characterClause chars = "" ∧
        composedPrompt style chars scene =
          jsTrim (generationTemplate (getStylePrompt style) "" scene)) ∧
    (chars ≠ [] →
      characterClause chars =
        "Defined Characters (MUST MATCH EXACTLY): " ++
          jsJoin ". " (chars.map characterEntry) ++ "." ∧
        hasSegment ("Defined Characters (MUST MATCH EXACTLY): " ++
            jsJoin ". " (chars.map characterEntry) ++ ".").data
          (composedPrompt style chars scene).data) := by
  constructor
  · rintro rfl
    have hcl : characterClause [] = "" := rfl
    constructor
    · exact hcl
    · unfold composedPrompt
      rw [hcl]
  · intro hne
    obtain ⟨c, cs, rfl⟩ : ∃ c cs, chars = c :: cs := by
      cases chars with
      | nil => exact absurd rfl hne
      | cons c cs => exact ⟨c, cs, rfl⟩
    have hctx : getCharacterContextString (c :: cs) =
        jsJoin ". " ((c :: cs).map characterEntry) := by
      unfold getCharacterContextString
      rw [if_neg (by simp)]
    have hclause : characterClause (c :: cs) =
        "Defined Characters (MUST MATCH EXACTLY): " ++
          jsJoin ". " ((c :: cs).map characterEntry) ++ "." := by
      unfold characterClause
      rw [if_neg (context_ne_empty c cs), hctx]
    refine ⟨hclause, ?_⟩
    rw [← hclause, composedPrompt_data]
    refine ⟨"Art Style: ".data ++ (getStylePrompt style).data ++ ".\n      ".data,
      "\n      Scene Description: ".data ++ scene.data ++
        ".\n      (Ensure consistent character details). high quality masterpiece.".data, ?_⟩
    simp [List.append_assoc]

/-- Witness for C6: the clause for a one-character roster, and the
clause-free prompt for the empty roster. -/
theorem roster_clause_in_composed_prompt_witness :
    characterClause [{ id := 7, name := "Ann", description := "tall" }] =
      "Defined Characters (MUST MATCH EXACTLY): " ++
        jsJoin ". " ([{ id := 7, name := "Ann", description := "tall" }].map characterEntry) ++
        "." ∧
      composedPrompt ComicStyle.MODERN [] "a fox" =
        jsTrim (generationTemplate (getStylePrompt ComicStyle.MODERN) "" "a fox") := by
  have h1 := roster_clause_in_composed_prompt ComicStyle.MODERN
    [{ id := 7, name := "Ann", description := "tall" }] "a fox"
  have h2 := roster_clause_in_composed_prompt ComicStyle.MODERN [] "a fox"
  exact ⟨(h1.2 (by simp)).1, (h2.1 rfl).2⟩

/-! ### C7: the NOIR/Raven scenario -/

/-- C7: for a generate request with style NOIR and a roster holding
exactly one character named "Raven" described "black hair, trenchcoat",
the composed prompt contains the NOIR style string of the style table
and the substring "Raven: black hair, trenchcoat.". -/
theorem noir_raven_prompt_contains (scene : String) (cid : Nat) :
    hasSegment
      ("film noir style, high contrast black and white comic, dramatic shadows, mysterious atmosphere, frank miller style").data
      (composedPrompt ComicStyle.NOIR
        [{ id := cid, name := "Raven", description := "black hair, trenchcoat" }] scene).data ∧
    hasSegment ("Raven: black hair, trenchcoat.").data
      (composedPrompt ComicStyle.NOIR
        [{ id := cid, name := "Raven", description := "black hair, trenchcoat" }] scene).data := by
  have hcc : getCharacterContextString
      [{ id := cid, name := "Raven", description := "black hair, trenchcoat" }] =
      "Raven: black hair, trenchcoat" := by
    unfold getCharacterContextString
    rw [if_neg (by simp)]
    show characterEntry _ = _
    unfold characterEntry
    rw [show jsTrim "Raven" = "Raven" by decide,
      show jsTrim "black hair, trenchcoat" = "black hair, trenchcoat" by decide]
    decide
  have hcl : characterClause
      [{ id := cid, name := "Raven", description := "black hair, trenchcoat" }] =
      "Defined Characters (MUST MATCH EXACTLY): " ++ "Raven: black hair, trenchcoat" ++ "." := by
    unfold characterClause
    rw [hcc]
    rw [if_neg (by decide)]
  constructor
  · rw [composedPrompt_data]
    rw [show getStylePrompt ComicStyle.NOIR =
      "film noir style, high contrast black and white comic, dramatic shadows, mysterious atmosphere, frank miller style" from rfl]
    refine ⟨"Art Style: ".data,
      ".\n      ".data ++
        (characterClause
          [{ id := cid, name := "Raven", description := "black hair, trenchcoat" }]).data ++
        "\n      Scene Description: ".data ++ scene.data ++
        ".\n      (Ensure consistent character details). high quality masterpiece.".data, ?_⟩
    simp [List.append_assoc]
  · rw [composedPrompt_data, hcl]
    refine ⟨"Art Style: ".data ++ (getStylePrompt ComicStyle.NOIR).data ++ ".\n      ".data ++
        "Defined Characters (MUST MATCH EXACTLY): ".data,
      "\n      Scene Description: ".data ++ scene.data ++
        ".\n      (Ensure consistent character details). high quality masterpiece.".data, ?_⟩
    rw [show ("Raven: black hair, trenchcoat." : String).data =
      ("Raven: black hair, trenchcoat" : String).data ++ (("." : String)).data by decide]
    simp [List.append_assoc]
